import Mathlib

/-!
# Verification of `scripts/clone_issues.py`

Shallow embedding of the issue-cloning script.  The script paginates through
the source repository's issues (`fetch_issues`), and for each fetched issue
builds a creation payload (title, body, label names) and posts it to the
destination repository (`create_issue`); the driver `clone_issues` loops over
pages 1, 2, 3, … until a page comes back empty.

Modelling choices:
* JSON values are the inductive `Json`; Python `d[k]` on a mapping is
  `pyGetItem` (missing key gives a `KeyError`, non-mapping gives a
  `TypeError`).
* The network is an oracle `World`: `fetchResp page` is the decoded body
  (a JSON array of issues) or the non-2xx status that makes
  `raise_for_status` throw, and `createResp n` is the response to the n-th
  POST (0-indexed), or its failing status.
* The `while True:` loop is modelled with explicit fuel; `RunResult.outOfFuel`
  means the loop was still running when fuel ran out, `RunResult.done` is
  normal completion (process exit status 0), `RunResult.error e` is an
  unhandled Python exception terminating the process.
* The run is instrumented with a trace of events: `Event.fetch p` each time
  `fetch_issues` is called with page `p`, and `Event.create d` each time a
  creation POST with payload `d` is issued.
-/

/-- JSON values, as decoded by `response.json()` / encoded by `json.dumps`.
Objects are association lists of string keys. -/
inductive Json where
  | null : Json
  | str : String → Json
  | num : Int → Json
  | arr : List Json → Json
  | obj : List (String × Json) → Json

/-- First-match association lookup, the model of key lookup in a Python dict
(dicts decoded from JSON have unique keys, so first match is the match). -/
def assocLookup (k : String) : List (String × Json) → Option Json
  | [] => none
  | (k2, v) :: rest => if k2 = k then some v else assocLookup k rest

/-- Key lookup on a JSON value: `some v` when the value is an object holding
the key, `none` otherwise. -/
def Json.lookup (j : Json) (k : String) : Option Json :=
  match j with
  | Json.obj fields => assocLookup k fields
  | _ => none

/-- The exceptions the script can raise: Python `KeyError` (missing mapping
key), Python `TypeError` (subscripting / iterating a non-mapping, non-array
value), and the `requests.HTTPError` thrown by `raise_for_status()` on a
non-2xx response, carrying the status code. -/
inductive PyErr where
  | keyError (key : String) : PyErr
  | typeError : PyErr
  | httpError (status : Nat) : PyErr
deriving DecidableEq, Repr

/-- Whether an exception is an HTTP request failure. -/
def PyErr.isHttp : PyErr → Bool
  | PyErr.httpError _ => true
  | _ => false

/-- Python `issue[k]`: `KeyError` when the mapping lacks the key,
`TypeError` when the value is not a mapping. -/
def pyGetItem (j : Json) (k : String) : Except PyErr Json :=
  match j with
  | Json.obj fields =>
      match assocLookup k fields with
      | some v => Except.ok v
      | none => Except.error (PyErr.keyError k)
  | _ => Except.error PyErr.typeError

/-- One step of the comprehension `[label["name"] for label in issue["labels"]]`:
`label["name"]` for a single label object. -/
def labelName (l : Json) : Except PyErr Json :=
  match l with
  | Json.obj fields =>
      match assocLookup "name" fields with
      | some n => Except.ok n
      | none => Except.error (PyErr.keyError "name")
  | _ => Except.error PyErr.typeError

/-- The whole comprehension `[label["name"] for label in issue["labels"]]`,
evaluated left to right, propagating the first exception. -/
def labelNames : List Json → Except PyErr (List Json)
  | [] => Except.ok []
  | l :: rest =>
      match labelName l with
      | Except.error e => Except.error e
      | Except.ok n =>
          match labelNames rest with
          | Except.error e => Except.error e
          | Except.ok ns => Except.ok (n :: ns)

/-- The dict literal built inside `create_issue` (`clone_issues.py` lines
27–31): `{"title": issue["title"], "body": issue["body"], "labels":
[label["name"] for label in issue["labels"]]}`, with Python's left-to-right
evaluation of the values.  `issue["labels"]` must be an array to iterate. -/
def buildData (issue : Json) : Except PyErr Json :=
  match pyGetItem issue "title" with
  | Except.error e => Except.error e
  | Except.ok t =>
      match pyGetItem issue "body" with
      | Except.error e => Except.error e
      | Except.ok b =>
          match pyGetItem issue "labels" with
          | Except.error e => Except.error e
          | Except.ok (Json.arr labels) =>
              match labelNames labels with
              | Except.error e => Except.error e
              | Except.ok ns =>
                  Except.ok (Json.obj
                    [("title", t), ("body", b), ("labels", Json.arr ns)])
          | Except.ok _ => Except.error PyErr.typeError

/-- The creation payload of a well-formed issue (junk value on ill-formed
input; used only under a `wellFormed` hypothesis). -/
def payloadOf (issue : Json) : Json :=
  match buildData issue with
  | Except.ok d => d
  | Except.error _ => Json.null

/-- An issue object is well-formed when building its creation payload raises
no exception: it is a mapping with keys `title`, `body`, `labels`, whose
`labels` is an array of mappings each holding `name`. -/
def wellFormed (issue : Json) : Bool :=
  match buildData issue with
  | Except.ok _ => true
  | Except.error _ => false

/-- The network oracle: the environment's answers to the script's HTTP
requests.  `fetchResp p` answers the GET for page `p` of the source
repository's issues (`Except.error s` is a non-2xx status `s`);
`createResp n` answers the n-th creation POST, counted from 0 across the
whole run. -/
structure World where
  fetchResp : Nat → Except Nat (List Json)
  createResp : Nat → Except Nat Json

/-- Model of `fetch_issues(repo, page)`: GET the page; `raise_for_status()`
turns a non-2xx status into an `HTTPError`; otherwise return the decoded
array. -/
def fetch_issues (w : World) (page : Nat) : Except PyErr (List Json) :=
  match w.fetchResp page with
  | Except.error status => Except.error (PyErr.httpError status)
  | Except.ok issues => Except.ok issues

/-- Model of `create_issue(repo, issue)`, as the `idx`-th POST of the run:
build the payload dict (which may raise `KeyError`/`TypeError` before any
request is sent), POST it, `raise_for_status()`, return the response body. -/
def create_issue (w : World) (idx : Nat) (issue : Json) : Except PyErr Json :=
  match buildData issue with
  | Except.error e => Except.error e
  | Except.ok _ =>
      match w.createResp idx with
      | Except.error status => Except.error (PyErr.httpError status)
      | Except.ok resp => Except.ok resp

/-- Observable events of a run: a call to `fetch_issues` with a given page
number, and a creation POST with a given payload. -/
inductive Event where
  | fetch (page : Nat) : Event
  | create (payload : Json) : Event

/-- How a run ends: normal completion (`break` on an empty page, process
exit status 0), an unhandled exception, or fuel exhaustion (the loop was
still going). -/
inductive RunResult where
  | done : RunResult
  | error (e : PyErr) : RunResult
  | outOfFuel : RunResult
deriving DecidableEq, Repr

/-- The inner loop `for issue in issues: create_issue(FORKED_REPO, issue)`,
with `idx` the number of creation POSTs already issued.  Returns the create
events of this page, the updated POST count, and the exception that aborted
the loop, if any.  A payload that fails to build raises before any POST, so
it contributes no event. -/
def createAll (w : World) (idx : Nat) : List Json → List Event × Nat × Option PyErr
  | [] => ([], idx, none)
  | issue :: rest =>
      match buildData issue with
      | Except.error e => ([], idx, some e)
      | Except.ok d =>
          match w.createResp idx with
          | Except.error status =>
              ([Event.create d], idx + 1, some (PyErr.httpError status))
          | Except.ok _ =>
              match createAll w (idx + 1) rest with
              | (evs, idx2, err) => (Event.create d :: evs, idx2, err)

/-- The `while True:` driver loop of `clone_issues`, with explicit fuel:
fetch the current page; stop normally if it is empty; otherwise create every
issue of the page, then move to the next page. -/
def cloneLoop (w : World) : Nat → Nat → Nat → List Event × RunResult
  | 0, _, _ => ([], RunResult.outOfFuel)
  | fuel + 1, page, idx =>
      match fetch_issues w page with
      | Except.error e => ([Event.fetch page], RunResult.error e)
      | Except.ok issues =>
          match issues with
          | [] => ([Event.fetch page], RunResult.done)
          | _ :: _ =>
            match createAll w idx issues with
            | (evs, _, some e) => (Event.fetch page :: evs, RunResult.error e)
            | (evs, idx2, none) =>
                match cloneLoop w fuel (page + 1) idx2 with
                | (evs2, res) => (Event.fetch page :: (evs ++ evs2), res)

/-- Model of `clone_issues()`: run the driver loop from page 1 with no POST
yet issued. -/
def clone_issues (w : World) (fuel : Nat) : List Event × RunResult :=
  cloneLoop w fuel 1 0

/-- Whether an event is a creation POST. -/
def Event.isCreate : Event → Bool
  | Event.create _ => true
  | _ => false

/-- Whether an event is a page fetch. -/
def Event.isFetch : Event → Bool
  | Event.fetch _ => true
  | _ => false

/-- The creation POSTs of a trace, in order, with their payloads. -/
def createEvents (evs : List Event) : List Event :=
  evs.filter Event.isCreate

/-- How many creation POSTs a trace holds. -/
def countCreates (evs : List Event) : Nat :=
  (createEvents evs).length

/-- The page bodies `fetch_issues` actually RETURNED during a trace: a fetch
whose response was a non-2xx status raised instead of returning, so it
contributes nothing. -/
def returnedPages (w : World) (evs : List Event) : List (List Json) :=
  evs.filterMap fun e =>
    match e with
    | Event.fetch p =>
        match w.fetchResp p with
        | Except.ok body => some body
        | Except.error _ => none
    | Event.create _ => none

/-- The expected trace of a fully successful run over the given non-empty
pages, the first fetched as page `p`: each page contributes its fetch event
followed by one create event per issue, in order. -/
def expectedEvents : Nat → List (List Json) → List Event
  | _, [] => []
  | p, pg :: rest =>
      Event.fetch p ::
        ((pg.map fun issue => Event.create (payloadOf issue)) ++
          expectedEvents (p + 1) rest)

/-- `IsInit a b`: trace `a` is an initial segment of trace `b`. -/
def IsInit (a b : List Event) : Prop :=
  ∃ t, a ++ t = b

/-! ## Sample data and worlds for concrete instantiations -/

/-- A well-formed sample issue: title, body, one label `bug` with extra
label metadata that the payload must drop. -/
def issA : Json :=
  Json.obj [("title", Json.str "A"), ("body", Json.str "body-A"),
    ("labels", Json.arr [Json.obj [("name", Json.str "bug"),
      ("color", Json.str "red")]])]

/-- The creation payload of `issA`. -/
def dA : Json :=
  Json.obj [("title", Json.str "A"), ("body", Json.str "body-A"),
    ("labels", Json.arr [Json.str "bug"])]

/-- A sample issue in the shape the GitHub API really returns: the label's
`name` comes after other metadata (`id`, `color`), and the issue carries
extra fields of its own. -/
def issB : Json :=
  Json.obj [("title", Json.str "B"), ("body", Json.str "body-B"),
    ("labels", Json.arr [Json.obj [("id", Json.num 7),
      ("color", Json.str "red"), ("name", Json.str "bug")]]),
    ("state", Json.str "open")]

/-- The creation payload of `issB`. -/
def dB : Json :=
  Json.obj [("title", Json.str "B"), ("body", Json.str "body-B"),
    ("labels", Json.arr [Json.str "bug"])]

/-- The world with no issues at all. -/
def wEmpty : World := ⟨fun _ => Except.ok [], fun _ => Except.ok Json.null⟩

/-- A source repository with a single page holding one issue `issA`;
every creation succeeds. -/
def wOne : World :=
  ⟨fun p => if p = 1 then Except.ok [issA] else Except.ok [],
   fun _ => Except.ok Json.null⟩

/-- A source repository that answers every page with one issue; every
creation succeeds: the loop never ends. -/
def wForever : World :=
  ⟨fun _ => Except.ok [issA], fun _ => Except.ok Json.null⟩

/-- One page of 100 issues, one page of 50, then empty; every creation
succeeds. -/
def w150 : World :=
  ⟨fun p => if p = 1 then Except.ok (List.replicate 100 issA)
    else if p = 2 then Except.ok (List.replicate 50 issA) else Except.ok [],
   fun _ => Except.ok Json.null⟩

/-- One page whose single issue is the empty mapping (no `title`). -/
def wKey : World :=
  ⟨fun p => if p = 1 then Except.ok [Json.obj []] else Except.ok [],
   fun _ => Except.ok Json.null⟩

/-- One page with three copies of `issA`; the POST numbered 1 (the second
one) gets a 500, the others succeed. -/
def wFailSecond : World :=
  ⟨fun p => if p = 1 then Except.ok [issA, issA, issA] else Except.ok [],
   fun k => if k = 1 then Except.error 500 else Except.ok Json.null⟩

/-- One page with one well-formed issue; every POST gets a 500. -/
def wFailCreate : World :=
  ⟨fun p => if p = 1 then Except.ok [issA] else Except.ok [],
   fun _ => Except.error 500⟩

/-- Fetch oracle shared by the two determinism worlds: page 1 has two
issues, every later page answers 500. -/
def detPages : Nat → Except Nat (List Json) :=
  fun p => if p = 1 then Except.ok [issA, issA] else Except.error 500

/-- Determinism world 1: every creation succeeds. -/
def wDet1 : World := ⟨detPages, fun _ => Except.ok Json.null⟩

/-- Determinism world 2: same fetch responses as `wDet1`, every creation
fails with 500. -/
def wDet2 : World := ⟨detPages, fun _ => Except.error 500⟩

/-! ## Basic lemmas about payload building -/

/-- `wellFormed` holds exactly when `buildData` succeeds. -/
theorem wellFormed_iff (issue : Json) :
    wellFormed issue = true ↔ ∃ d, buildData issue = Except.ok d := by
  unfold wellFormed
  cases h : buildData issue <;> simp

/-- On a well-formed issue, `buildData` returns `payloadOf`. -/
theorem buildData_of_wellFormed (issue : Json) (h : wellFormed issue = true) :
    buildData issue = Except.ok (payloadOf issue) := by
  unfold wellFormed at h
  unfold payloadOf
  cases hb : buildData issue
  · rw [hb] at h; exact absurd h (by simp)
  · rfl

/-- The comprehension over labels returns exactly their names, in order:
`ns` lists the value each label's `name` key looks up to (wherever that key
sits in the label object, any other metadata around it). -/
theorem labelNames_of_lookup (ls ns : List Json)
    (h : List.Forall₂ (fun l n => Json.lookup l "name" = some n) ls ns) :
    labelNames ls = Except.ok ns := by
  induction h with
  | nil => rfl
  | cons hrel _ ih =>
      rename_i l n tl tn _
      have hl : labelName l = Except.ok n := by
        cases l with
        | obj lfs =>
            simp only [Json.lookup] at hrel
            simp only [labelName]
            rw [hrel]
        | null => simp [Json.lookup] at hrel
        | str s => simp [Json.lookup] at hrel
        | num m => simp [Json.lookup] at hrel
        | arr xs => simp [Json.lookup] at hrel
      simp [labelNames, hl, ih]

/-- Reduction of `buildData` once the three key lookups are known and
`labels` is an array. -/
theorem buildData_eq (issue t b : Json) (labels : List Json)
    (ht : pyGetItem issue "title" = Except.ok t)
    (hb : pyGetItem issue "body" = Except.ok b)
    (hl : pyGetItem issue "labels" = Except.ok (Json.arr labels)) :
    buildData issue =
      match labelNames labels with
      | Except.error e => Except.error e
      | Except.ok ns =>
          Except.ok (Json.obj
            [("title", t), ("body", b), ("labels", Json.arr ns)]) := by
  unfold buildData
  rw [ht, hb, hl]

/-! ## C2, C7, C8 -/

/-- C2: for every issue object, the payload `create_issue` submits is a
mapping with exactly the three keys `title`, `body`, `labels`, bound to the
source issue's title, the source issue's body, and the sequence `ns` of the
value of each label's `name` key in the labels' original order — no other
field.  The labels are arbitrary: each label object may hold its `name`
anywhere among any other metadata (id, color, description, …), all of which
is dropped, and the issue's own extra fields are ignored. -/
theorem c2_payload_exact (issue t b : Json) (ls ns : List Json)
    (ht : pyGetItem issue "title" = Except.ok t)
    (hb : pyGetItem issue "body" = Except.ok b)
    (hl : pyGetItem issue "labels" = Except.ok (Json.arr ls))
    (hn : List.Forall₂ (fun l n => Json.lookup l "name" = some n) ls ns) :
    buildData issue =
      Except.ok (Json.obj
        [("title", t), ("body", b), ("labels", Json.arr ns)]) := by
  rw [buildData_eq issue t b ls ht hb hl, labelNames_of_lookup ls ns hn]

/-- Witness for C2: the payload of `issB` keeps title, body and the label's
name `bug` — found after the label's id and color — and drops the label
metadata and the issue's `state` field. -/
theorem c2_payload_exact_witness : buildData issB = Except.ok dB :=
  c2_payload_exact issB (Json.str "B") (Json.str "body-B")
    [Json.obj [("id", Json.num 7), ("color", Json.str "red"),
      ("name", Json.str "bug")]]
    [Json.str "bug"] rfl rfl rfl
    (List.Forall₂.cons rfl List.Forall₂.nil)

/-- C7: an issue whose `labels` attribute is the empty sequence yields a
payload in which the key `labels` is present and bound to the empty
sequence, not omitted. -/
theorem c7_empty_labels (issue t b : Json)
    (ht : pyGetItem issue "title" = Except.ok t)
    (hb : pyGetItem issue "body" = Except.ok b)
    (hl : pyGetItem issue "labels" = Except.ok (Json.arr [])) :
    buildData issue =
      Except.ok (Json.obj [("title", t), ("body", b), ("labels", Json.arr [])])
    ∧ Json.lookup
        (Json.obj [("title", t), ("body", b), ("labels", Json.arr [])])
        "labels" = some (Json.arr []) := by
  refine ⟨?_, rfl⟩
  rw [buildData_eq issue t b [] ht hb hl]
  rfl

/-- Witness for C7: a concrete issue with no labels. -/
theorem c7_empty_labels_witness :
    buildData (Json.obj [("title", Json.str "x"), ("body", Json.null),
        ("labels", Json.arr [])]) =
      Except.ok (Json.obj [("title", Json.str "x"), ("body", Json.null),
        ("labels", Json.arr [])])
    ∧ Json.lookup (Json.obj [("title", Json.str "x"), ("body", Json.null),
        ("labels", Json.arr [])]) "labels" = some (Json.arr []) :=
  c7_empty_labels _ _ _ rfl rfl rfl

/-- C8: when page 1 comes back empty, the run consists of exactly one fetch
(page 1), no creation POST, and ends in normal completion (exit status 0 in
the model's `RunResult.done`). -/
theorem c8_zero_issues (w : World) (h : w.fetchResp 1 = Except.ok [])
    (fuel : Nat) (hf : 1 ≤ fuel) :
    clone_issues w fuel = ([Event.fetch 1], RunResult.done) := by
  obtain ⟨f, rfl⟩ : ∃ f, fuel = f + 1 := ⟨fuel - 1, by omega⟩
  unfold clone_issues cloneLoop fetch_issues
  rw [h]

/-- Witness for C8: the empty source repository. -/
theorem c8_zero_issues_witness :
    clone_issues wEmpty 1 = ([Event.fetch 1], RunResult.done) :=
  c8_zero_issues wEmpty rfl 1 (Nat.le_refl 1)

/-! ## Step equations for the driver loop -/

/-- One loop iteration when the fetch raises. -/
theorem cloneLoop_step_error (w : World) (fuel page idx s : Nat)
    (h : w.fetchResp page = Except.error s) :
    cloneLoop w (fuel + 1) page idx =
      ([Event.fetch page], RunResult.error (PyErr.httpError s)) := by
  unfold cloneLoop fetch_issues
  rw [h]

/-- One loop iteration when the fetch returns an empty page. -/
theorem cloneLoop_step_empty (w : World) (fuel page idx : Nat)
    (h : w.fetchResp page = Except.ok []) :
    cloneLoop w (fuel + 1) page idx = ([Event.fetch page], RunResult.done) := by
  unfold cloneLoop fetch_issues
  rw [h]

/-- One loop iteration when the fetch returns a non-empty page. -/
theorem cloneLoop_step_cons (w : World) (fuel page idx : Nat) (a : Json)
    (as : List Json) (h : w.fetchResp page = Except.ok (a :: as)) :
    cloneLoop w (fuel + 1) page idx =
      (match createAll w idx (a :: as) with
        | (evs, _, some e) => (Event.fetch page :: evs, RunResult.error e)
        | (evs, idx2, none) =>
            match cloneLoop w fuel (page + 1) idx2 with
            | (evs2, res) => (Event.fetch page :: (evs ++ evs2), res)) := by
  conv_lhs => unfold cloneLoop fetch_issues
  rw [h]

/-! ## The driver loop on fully successful runs -/

/-- When every issue of the page is well-formed and every POST succeeds,
the inner loop issues one creation POST per issue, in order, and raises
nothing. -/
theorem createAll_ok (w : World) (hok : ∀ k, ∃ r, w.createResp k = Except.ok r) :
    ∀ (issues : List Json) (idx : Nat),
      (∀ i ∈ issues, wellFormed i = true) →
      createAll w idx issues =
        ((issues.map fun i => Event.create (payloadOf i)),
          idx + issues.length, none) := by
  intro issues
  induction issues with
  | nil => intro idx _; rfl
  | cons hd tl ih =>
      intro idx hwf
      have hhd : buildData hd = Except.ok (payloadOf hd) :=
        buildData_of_wellFormed hd (hwf hd (by simp))
      obtain ⟨r, hr⟩ := hok idx
      have htl := ih (idx + 1) (fun i hi => hwf i (by simp [hi]))
      simp [createAll, hhd, hr, htl]
      omega

/-- A fully successful run over non-empty pages `pages`, the first fetched
as page `p`: the trace is one fetch per page, each followed by one create
per issue in order, then the fetch of the first empty page, and the run
completes normally. -/
theorem cloneLoop_all_ok (w : World) (hok : ∀ k, ∃ r, w.createResp k = Except.ok r) :
    ∀ (pages : List (List Json)) (p idx fuel : Nat),
      (∀ i, i < pages.length → w.fetchResp (p + i) = Except.ok (pages.getD i [])) →
      w.fetchResp (p + pages.length) = Except.ok [] →
      (∀ pg ∈ pages, pg ≠ []) →
      (∀ pg ∈ pages, ∀ i ∈ pg, wellFormed i = true) →
      pages.length + 1 ≤ fuel →
      cloneLoop w fuel p idx =
        (expectedEvents p pages ++ [Event.fetch (p + pages.length)],
          RunResult.done) := by
  intro pages
  induction pages with
  | nil =>
      intro p idx fuel _ hlast _ _ hfuel
      obtain ⟨f, rfl⟩ : ∃ f, fuel = f + 1 := ⟨fuel - 1, by omega⟩
      have h0 : w.fetchResp p = Except.ok [] := by simpa using hlast
      unfold cloneLoop fetch_issues
      rw [h0]
      simp [expectedEvents]
  | cons pg rest ih =>
      intro p idx fuel hfetch hlast hne hwf hfuel
      obtain ⟨f, rfl⟩ : ∃ f, fuel = f + 1 := ⟨fuel - 1, by omega⟩
      have h0 : w.fetchResp p = Except.ok pg := by simpa using hfetch 0 (by simp)
      have hca := createAll_ok w hok pg idx (fun i hi => hwf pg (by simp) i hi)
      have hrest := ih (p + 1) (idx + pg.length) f
        (fun i hi => by
          have hx := hfetch (i + 1) (by simpa using Nat.succ_lt_succ hi)
          have he : p + (i + 1) = p + 1 + i := by omega
          rw [he] at hx
          simpa using hx)
        (by
          have he : p + (pg :: rest).length = p + 1 + rest.length := by
            simp; omega
          rw [he] at hlast
          exact hlast)
        (fun q hq => hne q (by simp [hq]))
        (fun q hq i hi => hwf q (by simp [hq]) i hi)
        (by simp at hfuel; omega)
      cases pg with
      | nil => exact absurd rfl (hne [] (by simp))
      | cons a as =>
          rw [cloneLoop_step_cons w f p idx a as h0]
          simp only [hca, hrest]
          simp [expectedEvents]
          omega

/-! ## C1 and C6 -/

/-- C1: over any source whose pages 1..N are non-empty (well-formed issues,
all requests succeeding) and whose page N+1 is empty, the run's trace is
exactly: for each page in order 1, 2, 3, …, its fetch event followed by one
creation POST per issue of the page in the order the page lists them — so
every creation of a page happens after that page's fetch and before the next
page's fetch — ending with the fetch of the first empty page. -/
theorem c1_creates_follow_pages (w : World) (pages : List (List Json))
    (hfetch : ∀ i, i < pages.length →
      w.fetchResp (1 + i) = Except.ok (pages.getD i []))
    (hlast : w.fetchResp (1 + pages.length) = Except.ok [])
    (hne : ∀ pg ∈ pages, pg ≠ [])
    (hwf : ∀ pg ∈ pages, ∀ i ∈ pg, wellFormed i = true)
    (hok : ∀ k, ∃ r, w.createResp k = Except.ok r)
    (fuel : Nat) (hfuel : pages.length + 1 ≤ fuel) :
    clone_issues w fuel =
      (expectedEvents 1 pages ++ [Event.fetch (1 + pages.length)],
        RunResult.done) :=
  cloneLoop_all_ok w hok pages 1 0 fuel hfetch hlast hne hwf hfuel

/-- Witness for C1: one page with one issue. -/
theorem c1_creates_follow_pages_witness :
    clone_issues wOne 2 =
      (expectedEvents 1 [[issA]] ++ [Event.fetch 2], RunResult.done) :=
  c1_creates_follow_pages wOne [[issA]]
    (fun i hi => by
      have h0 : i = 0 := by simpa using hi
      subst h0
      rfl)
    rfl
    (fun pg hpg => by
      have h0 : pg = [issA] := by simpa using hpg
      subst h0
      simp)
    (fun pg hpg i hi => by
      have h0 : pg = [issA] := by simpa using hpg
      subst h0
      have h1 : i = issA := by simpa using hi
      subst h1
      rfl)
    (fun k => ⟨Json.null, rfl⟩)
    2 (by simp)

/-! ## Counting events in a trace -/

/-- A trace of creates holds no fetch event. -/
theorem filter_isFetch_map_create (pg : List Json) :
    ((pg.map fun i => Event.create (payloadOf i)).filter Event.isFetch) = [] := by
  induction pg with
  | nil => rfl
  | cons hd tl ih => simp [Event.isFetch, List.filter, ih]

/-- A trace of creates is all creates. -/
theorem createEvents_map_create (pg : List Json) :
    createEvents (pg.map fun i => Event.create (payloadOf i)) =
      pg.map fun i => Event.create (payloadOf i) := by
  unfold createEvents
  induction pg with
  | nil => rfl
  | cons hd tl ih => simp [Event.isCreate, List.filter, ih]

/-- C6: when page 1 holds 100 issues, page 2 holds 50 and page 3 is empty
(all issues well-formed, all requests succeeding), `fetch_issues` is called
exactly three times, with pages 1, 2, 3 in that order, and exactly 150
creation POSTs are issued. -/
theorem c6_150_issues (w : World) (pg1 pg2 : List Json)
    (h1 : w.fetchResp 1 = Except.ok pg1) (hl1 : pg1.length = 100)
    (h2 : w.fetchResp 2 = Except.ok pg2) (hl2 : pg2.length = 50)
    (h3 : w.fetchResp 3 = Except.ok [])
    (hwf : ∀ i ∈ pg1 ++ pg2, wellFormed i = true)
    (hok : ∀ k, ∃ r, w.createResp k = Except.ok r)
    (fuel : Nat) (hfuel : 3 ≤ fuel) :
    (clone_issues w fuel).1.filter Event.isFetch =
      [Event.fetch 1, Event.fetch 2, Event.fetch 3]
    ∧ countCreates (clone_issues w fuel).1 = 150
    ∧ (clone_issues w fuel).2 = RunResult.done := by
  have hrun := cloneLoop_all_ok w hok [pg1, pg2] 1 0 fuel
    (fun i hi => by
      have hi2 : i < 2 := by simpa using hi
      interval_cases i
      · simpa using h1
      · simpa using h2)
    (by simpa using h3)
    (fun pg hpg => by
      rcases (by simpa using hpg : pg = pg1 ∨ pg = pg2) with h | h <;> subst h
      · exact List.ne_nil_of_length_pos (by omega)
      · exact List.ne_nil_of_length_pos (by omega))
    (fun pg hpg i hi => by
      rcases (by simpa using hpg : pg = pg1 ∨ pg = pg2) with h | h <;> subst h
      · exact hwf i (by simp [hi])
      · exact hwf i (by simp [hi]))
    (by simpa using hfuel)
  unfold clone_issues
  rw [hrun]
  refine ⟨?_, ?_, rfl⟩
  · simp [expectedEvents, List.filter_append, List.filter,
      filter_isFetch_map_create, Event.isFetch]
  · unfold countCreates
    simp [expectedEvents, createEvents, List.filter_append, List.filter,
      Event.isCreate, filter_isFetch_map_create]
    have hc1 : ((pg1.map fun i => Event.create (payloadOf i)).filter
        Event.isCreate).length = pg1.length := by
      rw [show (pg1.map fun i => Event.create (payloadOf i)).filter
          Event.isCreate = createEvents (pg1.map fun i =>
            Event.create (payloadOf i)) from rfl,
        createEvents_map_create]
      simp
    have hc2 : ((pg2.map fun i => Event.create (payloadOf i)).filter
        Event.isCreate).length = pg2.length := by
      rw [show (pg2.map fun i => Event.create (payloadOf i)).filter
          Event.isCreate = createEvents (pg2.map fun i =>
            Event.create (payloadOf i)) from rfl,
        createEvents_map_create]
      simp
    omega

/-- Witness for C6: 100 + 50 concrete issues. -/
theorem c6_150_issues_witness :
    (clone_issues w150 3).1.filter Event.isFetch =
      [Event.fetch 1, Event.fetch 2, Event.fetch 3]
    ∧ countCreates (clone_issues w150 3).1 = 150
    ∧ (clone_issues w150 3).2 = RunResult.done :=
  c6_150_issues w150 (List.replicate 100 issA) (List.replicate 50 issA)
    rfl (by simp)
    rfl (by simp)
    rfl
    (fun i hi => by
      rcases List.mem_append.1 hi with h | h <;>
        rw [List.eq_of_mem_replicate h] <;> rfl)
    (fun k => ⟨Json.null, rfl⟩)
    3 (Nat.le_refl 3)

/-! ## C3: termination behaviour -/

/-- A run that completes normally does so right after fetching a page that
came back empty: the trace ends with that fetch. -/
theorem cloneLoop_done_last (w : World) :
    ∀ (fuel page idx : Nat) (evs : List Event),
      cloneLoop w fuel page idx = (evs, RunResult.done) →
      ∃ pre p, evs = pre ++ [Event.fetch p] ∧ w.fetchResp p = Except.ok [] := by
  intro fuel
  induction fuel with
  | zero =>
      intro page idx evs h
      have := congrArg Prod.snd h
      simp [cloneLoop] at this
  | succ f ih =>
      intro page idx evs h
      cases hf : w.fetchResp page with
      | error s =>
          rw [cloneLoop_step_error w f page idx s hf] at h
          have := congrArg Prod.snd h
          simp at this
      | ok issues =>
          cases issues with
          | nil =>
              rw [cloneLoop_step_empty w f page idx hf] at h
              have hevs : evs = [Event.fetch page] := by
                have := congrArg Prod.fst h
                simpa using this.symm
              exact ⟨[], page, by simp [hevs], hf⟩
          | cons a as =>
              rw [cloneLoop_step_cons w f page idx a as hf] at h
              rcases hca : createAll w idx (a :: as) with ⟨cevs, idx2, err⟩
              cases err with
              | some e =>
                  simp only [hca] at h
                  have := congrArg Prod.snd h
                  simp at this
              | none =>
                  simp only [hca] at h
                  rcases hcl : cloneLoop w f (page + 1) idx2 with ⟨evs2, res⟩
                  simp only [hcl] at h
                  have hres : res = RunResult.done := by
                    have := congrArg Prod.snd h
                    simpa using this
                  obtain ⟨pre, p, hpre, hp⟩ :=
                    ih (page + 1) idx2 evs2 (by rw [hcl, hres])
                  have hevs : evs = Event.fetch page :: (cevs ++ evs2) := by
                    have := congrArg Prod.fst h
                    simpa using this.symm
                  exact ⟨Event.fetch page :: (cevs ++ pre), p,
                    by simp [hevs, hpre], hp⟩

/-- When every page of the source is non-empty (and nothing fails), the
loop never reaches normal completion: it only ever stops for lack of
fuel. -/
theorem cloneLoop_never_done (w : World)
    (hne : ∀ p, 1 ≤ p → ∃ iss, w.fetchResp p = Except.ok iss ∧ iss ≠ [] ∧
      ∀ i ∈ iss, wellFormed i = true)
    (hok : ∀ k, ∃ r, w.createResp k = Except.ok r) :
    ∀ (fuel page idx : Nat), 1 ≤ page →
      (cloneLoop w fuel page idx).2 = RunResult.outOfFuel := by
  intro fuel
  induction fuel with
  | zero => intro page idx _; rfl
  | succ f ih =>
      intro page idx hp
      obtain ⟨iss, hissA, hissne, hisswf⟩ := hne page hp
      cases iss with
      | nil => exact absurd rfl hissne
      | cons a as =>
          rw [cloneLoop_step_cons w f page idx a as hissA]
          have hca := createAll_ok w hok (a :: as) idx hisswf
          simp only [hca]
          rcases hcl : cloneLoop w f (page + 1) (idx + (a :: as).length)
            with ⟨evs2, res⟩
          have hres := ih (page + 1) (idx + (a :: as).length) (by omega)
          rw [hcl] at hres
          simpa using hres

/-- C3: the driver loop reaches normal completion when and only when a
fetched page is empty.  First conjunct: if every page is non-empty (and no
request or payload fails), the loop runs forever — for every fuel bound it
is still running.  Second conjunct: a normally completed run ends exactly
at the fetch whose page came back empty (so no creation POST was issued for
that page, and nothing follows it).  Third conjunct: as soon as a fetch
returns an empty page the loop stops at once, with that fetch as its only
event of the iteration. -/
theorem c3_terminates_iff_empty (w : World) :
    ((∀ p, 1 ≤ p → ∃ iss, w.fetchResp p = Except.ok iss ∧ iss ≠ [] ∧
        ∀ i ∈ iss, wellFormed i = true) →
      (∀ k, ∃ r, w.createResp k = Except.ok r) →
      ∀ fuel, (clone_issues w fuel).2 = RunResult.outOfFuel)
    ∧ (∀ fuel evs, clone_issues w fuel = (evs, RunResult.done) →
        ∃ pre p, evs = pre ++ [Event.fetch p] ∧ w.fetchResp p = Except.ok [])
    ∧ (∀ fuel page idx, w.fetchResp page = Except.ok [] →
        cloneLoop w (fuel + 1) page idx = ([Event.fetch page], RunResult.done)) :=
  ⟨fun h1 h2 fuel => cloneLoop_never_done w h1 h2 fuel 1 0 (Nat.le_refl 1),
   fun fuel evs h => cloneLoop_done_last w fuel 1 0 evs h,
   fun fuel page idx h => cloneLoop_step_empty w fuel page idx h⟩

/-- Witness for C3: with every page non-empty the run exhausts any fuel
bound; with page 1 empty the loop stops at once. -/
theorem c3_terminates_iff_empty_witness :
    (clone_issues wForever 7).2 = RunResult.outOfFuel
    ∧ cloneLoop wEmpty 3 1 0 = ([Event.fetch 1], RunResult.done) :=
  ⟨(c3_terminates_iff_empty wForever).1
      (fun p _ => ⟨[issA], rfl, by simp, fun i hi => by
        have h0 : i = issA := by simpa using hi
        subst h0
        rfl⟩)
      (fun k => ⟨Json.null, rfl⟩) 7,
   (c3_terminates_iff_empty wEmpty).2.2 2 1 0 rfl⟩

/-! ## C4: error taxonomy -/

/-- Counterexample to C4 as stated: an issue object with no `title` key
makes the run fail with a Python `KeyError`, which is not an HTTP request
failure — so "non-2xx response" is not the only possible failure kind. -/
theorem c4_counterexample :
    (clone_issues wKey 2).2 = RunResult.error (PyErr.keyError "title")
    ∧ PyErr.isHttp (PyErr.keyError "title") = false :=
  ⟨rfl, rfl⟩

/-- If every issue of the page is well-formed, an exception out of the inner
loop can only be an HTTP failure. -/
theorem createAll_err_isHttp (w : World) :
    ∀ (issues : List Json) (idx : Nat) (e : PyErr),
      (∀ i ∈ issues, wellFormed i = true) →
      (createAll w idx issues).2.2 = some e → PyErr.isHttp e = true := by
  intro issues
  induction issues with
  | nil => intro idx e _ h; simp [createAll] at h
  | cons hd tl ih =>
      intro idx e hwf h
      have hhd : buildData hd = Except.ok (payloadOf hd) :=
        buildData_of_wellFormed hd (hwf hd (by simp))
      simp only [createAll, hhd] at h
      cases hcr : w.createResp idx with
      | error s =>
          simp only [hcr] at h
          have : PyErr.httpError s = e := by simpa using h
          rw [← this]
          rfl
      | ok r =>
          simp only [hcr] at h
          rcases hca : createAll w (idx + 1) tl with ⟨evs2, idx2, err2⟩
          simp only [hca] at h
          exact ih (idx + 1) e (fun i hi => hwf i (by simp [hi]))
            (by rw [hca]; simpa using h)

/-- If every fetched issue is well-formed, an exception out of the driver
loop can only be an HTTP failure. -/
theorem cloneLoop_err_isHttp (w : World)
    (hwf : ∀ p iss, w.fetchResp p = Except.ok iss →
      ∀ i ∈ iss, wellFormed i = true) :
    ∀ (fuel page idx : Nat) (evs : List Event) (e : PyErr),
      cloneLoop w fuel page idx = (evs, RunResult.error e) →
      PyErr.isHttp e = true := by
  intro fuel
  induction fuel with
  | zero =>
      intro page idx evs e h
      have := congrArg Prod.snd h
      simp [cloneLoop] at this
  | succ f ih =>
      intro page idx evs e h
      cases hf : w.fetchResp page with
      | error s =>
          rw [cloneLoop_step_error w f page idx s hf] at h
          have hs := congrArg Prod.snd h
          simp at hs
          rw [← hs]
          rfl
      | ok issues =>
          cases issues with
          | nil =>
              rw [cloneLoop_step_empty w f page idx hf] at h
              have := congrArg Prod.snd h
              simp at this
          | cons a as =>
              rw [cloneLoop_step_cons w f page idx a as hf] at h
              rcases hca : createAll w idx (a :: as) with ⟨cevs, idx2, err⟩
              cases err with
              | some e2 =>
                  simp only [hca] at h
                  have hs := congrArg Prod.snd h
                  simp at hs
                  have he2 : PyErr.isHttp e2 = true :=
                    createAll_err_isHttp w (a :: as) idx e2 (hwf page _ hf)
                      (by rw [hca])
                  rw [← hs]
                  exact he2
              | none =>
                  simp only [hca] at h
                  rcases hcl : cloneLoop w f (page + 1) idx2 with ⟨evs2, res⟩
                  simp only [hcl] at h
                  have hs := congrArg Prod.snd h
                  simp at hs
                  exact ih (page + 1) idx2 evs2 e (by rw [hcl, hs])

/-- C4, amended: PROVIDED every fetched issue object is well-formed (has
`title`, `body` and `labels`, each label bearing `name`), the only failure
kind the program can raise is an HTTP request failure (a non-2xx response
from either endpoint), and every such failure terminates the run at once
with no local recovery.  (The proviso is forced by `c4_counterexample`: on
an issue object missing a required key the program raises a `KeyError`, not
an HTTP failure.) -/
theorem c4_http_only_failures (w : World)
    (hwf : ∀ p iss, w.fetchResp p = Except.ok iss →
      ∀ i ∈ iss, wellFormed i = true)
    (fuel : Nat) (evs : List Event) (e : PyErr)
    (hrun : clone_issues w fuel = (evs, RunResult.error e)) :
    PyErr.isHttp e = true :=
  cloneLoop_err_isHttp w hwf fuel 1 0 evs e hrun

/-- Witness for the amended C4: a failing creation POST surfaces as an HTTP
failure. -/
theorem c4_http_only_failures_witness :
    PyErr.isHttp (PyErr.httpError 500) = true :=
  c4_http_only_failures wFailCreate
    (fun p iss hp i hi => by
      by_cases h1 : p = 1
      · subst h1
        simp only [wFailCreate, if_pos rfl] at hp
        have hiss : iss = [issA] := by simpa using hp.symm
        subst hiss
        have h0 : i = issA := by simpa using hi
        subst h0
        rfl
      · simp only [wFailCreate, if_neg h1] at hp
        have hiss : iss = [] := by simpa using hp.symm
        subst hiss
        simp at hi)
    2 [Event.fetch 1, Event.create dA] (PyErr.httpError 500) rfl

/-! ## C5: a failing creation POST aborts the run at once -/

/-- A fetch event does not change the creation count of a trace. -/
theorem countCreates_fetch_cons (p : Nat) (evs : List Event) :
    countCreates (Event.fetch p :: evs) = countCreates evs := by
  simp [countCreates, createEvents, List.filter, Event.isCreate]

/-- The creation count of a trace of creates is its length. -/
theorem countCreates_all_create (evs : List Event)
    (h : ∀ e ∈ evs, Event.isCreate e = true) :
    countCreates evs = evs.length := by
  unfold countCreates createEvents
  rw [List.filter_eq_self.mpr (by simpa using h)]

/-- Creation counts add up over trace concatenation. -/
theorem countCreates_append (a b : List Event) :
    countCreates (a ++ b) = countCreates a + countCreates b := by
  simp [countCreates, createEvents, List.filter_append]

/-- Behaviour of the inner loop when POST number `n` (0-indexed) is doomed
to a non-2xx status `s` and the loop starts at POST count `idx ≤ n`: the
POST count never passes `n + 1`, and if it reaches `n + 1` the loop stopped
on the failing POST, with its create event last. -/
theorem createAll_fail_bound (w : World) (n s : Nat)
    (hfail : w.createResp n = Except.error s) :
    ∀ (issues : List Json) (idx : Nat), idx ≤ n →
      ∀ evs idx2 err, createAll w idx issues = (evs, idx2, err) →
        idx2 = idx + evs.length ∧ (∀ e ∈ evs, Event.isCreate e = true) ∧
        idx2 ≤ n + 1 ∧
        (idx2 = n + 1 → err = some (PyErr.httpError s) ∧
          ∃ pre d, evs = pre ++ [Event.create d]) := by
  intro issues
  induction issues with
  | nil =>
      intro idx hidx evs idx2 err h
      simp only [createAll] at h
      injection h with h1 h2
      injection h2 with h2 h3
      subst h1; subst h2; subst h3
      exact ⟨by simp, by simp, by omega, fun hq => absurd hq (by omega)⟩
  | cons hd tl ih =>
      intro idx hidx evs idx2 err h
      cases hbd : buildData hd with
      | error e =>
          simp only [createAll, hbd] at h
          injection h with h1 h2
          injection h2 with h2 h3
          subst h1; subst h2; subst h3
          exact ⟨by simp, by simp, by omega, fun hq => absurd hq (by omega)⟩
      | ok d =>
          simp only [createAll, hbd] at h
          cases hcr : w.createResp idx with
          | error st =>
              simp only [hcr] at h
              injection h with h1 h2
              injection h2 with h2 h3
              subst h1; subst h2; subst h3
              refine ⟨by simp, ?_, by omega, ?_⟩
              · intro e he
                have h0 : e = Event.create d := by simpa using he
                subst h0
                rfl
              · intro hq
                have hidxn : idx = n := by omega
                subst hidxn
                rw [hfail] at hcr
                injection hcr with hst
                subst hst
                exact ⟨rfl, [], d, by simp⟩
          | ok r =>
              simp only [hcr] at h
              rcases hca : createAll w (idx + 1) tl with ⟨evs2, idx3, err2⟩
              simp only [hca] at h
              injection h with h1 h2
              injection h2 with h2 h3
              subst h1; subst h2; subst h3
              have hne2 : idx ≠ n := by
                intro hh
                rw [hh, hfail] at hcr
                simp at hcr
              obtain ⟨hA, hB, hC, hD⟩ := ih (idx + 1) (by omega) evs2 idx3 err2 hca
              refine ⟨by simp only [hA, List.length_cons]; omega, ?_, by omega, ?_⟩
              · intro e he
                rcases (by simpa using he : e = Event.create d ∨ e ∈ evs2) with
                  h1 | h1
                · subst h1; rfl
                · exact hB e h1
              · intro hq
                obtain ⟨herr, pre, d2, hpre⟩ := hD hq
                exact ⟨herr, Event.create d :: pre, d2, by simp [hpre]⟩

/-- Behaviour of the driver loop when POST number `n` is doomed to fail
with status `s`: no more than `n + 1` creation POSTs are ever issued, and
if the failing one is issued the run ends right there in its error, the
trace ending at that POST (nothing — no fetch, no create — after it). -/
theorem cloneLoop_fail_bound (w : World) (n s : Nat)
    (hfail : w.createResp n = Except.error s) :
    ∀ (fuel page idx : Nat), idx ≤ n →
      ∀ evs res, cloneLoop w fuel page idx = (evs, res) →
        idx + countCreates evs ≤ n + 1 ∧
        (idx + countCreates evs = n + 1 →
          res = RunResult.error (PyErr.httpError s) ∧
          ∃ pre d, evs = pre ++ [Event.create d]) := by
  intro fuel
  induction fuel with
  | zero =>
      intro page idx hidx evs res h
      simp only [cloneLoop] at h
      injection h with h1 h2
      subst h1; subst h2
      constructor
      · simp [countCreates, createEvents]
        omega
      · intro hq
        exfalso
        simp [countCreates, createEvents] at hq
        omega
  | succ f ih =>
      intro page idx hidx evs res h
      cases hf : w.fetchResp page with
      | error s2 =>
          rw [cloneLoop_step_error w f page idx s2 hf] at h
          injection h with h1 h2
          subst h1; subst h2
          constructor
          · rw [countCreates_fetch_cons]
            simp [countCreates, createEvents]
            omega
          · intro hq
            exfalso
            rw [countCreates_fetch_cons] at hq
            simp [countCreates, createEvents] at hq
            omega
      | ok issues =>
          cases issues with
          | nil =>
              rw [cloneLoop_step_empty w f page idx hf] at h
              injection h with h1 h2
              subst h1; subst h2
              constructor
              · rw [countCreates_fetch_cons]
                simp [countCreates, createEvents]
                omega
              · intro hq
                exfalso
                rw [countCreates_fetch_cons] at hq
                simp [countCreates, createEvents] at hq
                omega
          | cons a as =>
              rw [cloneLoop_step_cons w f page idx a as hf] at h
              rcases hca : createAll w idx (a :: as) with ⟨cevs, idx2, err⟩
              obtain ⟨hA, hB, hC, hD⟩ :=
                createAll_fail_bound w n s hfail (a :: as) idx hidx cevs idx2
                  err hca
              cases err with
              | some e =>
                  simp only [hca] at h
                  injection h with h1 h2
                  subst h1; subst h2
                  rw [countCreates_fetch_cons, countCreates_all_create cevs hB]
                  constructor
                  · omega
                  · intro hq
                    have hidx2 : idx2 = n + 1 := by omega
                    obtain ⟨herr, pre, d, hpre⟩ := hD hidx2
                    injection herr with he
                    subst he
                    exact ⟨rfl, Event.fetch page :: pre, d, by simp [hpre]⟩
              | none =>
                  simp only [hca] at h
                  rcases hcl : cloneLoop w f (page + 1) idx2 with ⟨evs2, res2⟩
                  simp only [hcl] at h
                  injection h with h1 h2
                  subst h1; subst h2
                  have hlt : idx2 ≤ n := by
                    rcases Nat.lt_or_ge idx2 (n + 1) with hh | hh
                    · omega
                    · exfalso
                      have hcontra := (hD (by omega)).1
                      simp at hcontra
                  obtain ⟨h2A, h2B⟩ := ih (page + 1) idx2 hlt evs2 res2 hcl
                  rw [countCreates_fetch_cons, countCreates_append,
                    countCreates_all_create cevs hB]
                  constructor
                  · omega
                  · intro hq
                    have hq2 : idx2 + countCreates evs2 = n + 1 := by omega
                    obtain ⟨hres, pre, d, hpre⟩ := h2B hq2
                    exact ⟨hres, Event.fetch page :: (cevs ++ pre), d,
                      by simp [hpre]⟩

/-- C5: if POST number `n` (0-indexed; the claim's "37th call" is `n = 36`)
is doomed to a non-2xx status, then the whole run never issues more than
`n + 1` creation POSTs — there is no `(n+2)`-th call — and when the failing
POST is issued, the run ends at once in that HTTP error with the failing
create event as the very last event of the trace: no further `create_issue`
call and no further `fetch_issues` call.  The model's run result carries
only the error — no record of the `n` creations that succeeded before. -/
theorem c5_fail_aborts (w : World) (n s : Nat)
    (hfail : w.createResp n = Except.error s)
    (fuel : Nat) (evs : List Event) (res : RunResult)
    (hrun : clone_issues w fuel = (evs, res)) :
    countCreates evs ≤ n + 1 ∧
    (countCreates evs = n + 1 →
      res = RunResult.error (PyErr.httpError s) ∧
      ∃ pre d, evs = pre ++ [Event.create d]) := by
  have h := cloneLoop_fail_bound w n s hfail fuel 1 0 (Nat.zero_le n) evs res
    hrun
  simpa using h

/-- Witness for C5: the second POST (n = 1) fails; the run makes exactly
two POSTs and stops on the failing one. -/
theorem c5_fail_aborts_witness :
    countCreates [Event.fetch 1, Event.create dA, Event.create dA] ≤ 2
    ∧ (countCreates [Event.fetch 1, Event.create dA, Event.create dA] = 2 →
        RunResult.error (PyErr.httpError 500) =
          RunResult.error (PyErr.httpError 500)
        ∧ ∃ pre d, [Event.fetch 1, Event.create dA, Event.create dA] =
            pre ++ [Event.create d]) :=
  c5_fail_aborts wFailSecond 1 500 rfl 2
    [Event.fetch 1, Event.create dA, Event.create dA]
    (RunResult.error (PyErr.httpError 500)) rfl

/-! ## C9: undocumented precondition of `create_issue` -/

/-- Key lookup failure on a mapping is a `KeyError`. -/
theorem pyGetItem_none (fs : List (String × Json)) (k : String)
    (h : Json.lookup (Json.obj fs) k = none) :
    pyGetItem (Json.obj fs) k = Except.error (PyErr.keyError k) := by
  simp only [Json.lookup] at h
  simp only [pyGetItem]
  rw [h]

/-- Key lookup success on a mapping returns the value. -/
theorem pyGetItem_some (fs : List (String × Json)) (k : String) (v : Json)
    (h : Json.lookup (Json.obj fs) k = some v) :
    pyGetItem (Json.obj fs) k = Except.ok v := by
  simp only [Json.lookup] at h
  simp only [pyGetItem]
  rw [h]

/-- If the labels are all mappings and one of them lacks `name`, the
comprehension raises `KeyError "name"`. -/
theorem labelNames_missing_name :
    ∀ (ls : List Json), (∀ l ∈ ls, ∃ lfs, l = Json.obj lfs) →
      (∃ l ∈ ls, Json.lookup l "name" = none) →
      labelNames ls = Except.error (PyErr.keyError "name") := by
  intro ls
  induction ls with
  | nil => intro _ hex; simp at hex
  | cons l tl ih =>
      intro hobj hex
      obtain ⟨lfs, rfl⟩ := hobj l (by simp)
      cases hn : assocLookup "name" lfs with
      | none => simp [labelNames, labelName, hn]
      | some nm =>
          have htl : ∃ l2 ∈ tl, Json.lookup l2 "name" = none := by
            rcases hex with ⟨l2, hl2, hnone⟩
            rcases (by simpa using hl2 : l2 = Json.obj lfs ∨ l2 ∈ tl) with
              h1 | h1
            · subst h1
              simp only [Json.lookup] at hnone
              rw [hn] at hnone
              cases hnone
            · exact ⟨l2, h1, hnone⟩
          have := ih (fun q hq => hobj q (by simp [hq])) htl
          simp [labelNames, labelName, hn, this]

/-- C9: `create_issue` has an undocumented precondition on its input.
First conjunct: whenever building the payload raises (any `KeyError` or
`TypeError`), `create_issue` returns exactly that exception for EVERY
network oracle and POST index — so the exception precedes any HTTP request
— and the inner loop records no creation POST for the issue.  The remaining
conjuncts: a mapping without `title` raises `KeyError "title"`; with
`title` but no `body`, `KeyError "body"`; with both but no `labels`,
`KeyError "labels"`; and with a `labels` array of mappings one of which
lacks `name`, `KeyError "name"`. -/
theorem c9_missing_key_precondition :
    (∀ (w : World) (idx : Nat) (issue : Json) (e : PyErr),
        buildData issue = Except.error e →
        create_issue w idx issue = Except.error e ∧
        ∀ rest, createAll w idx (issue :: rest) = ([], idx, some e))
    ∧ (∀ fs, Json.lookup (Json.obj fs) "title" = none →
        buildData (Json.obj fs) = Except.error (PyErr.keyError "title"))
    ∧ (∀ fs t, Json.lookup (Json.obj fs) "title" = some t →
        Json.lookup (Json.obj fs) "body" = none →
        buildData (Json.obj fs) = Except.error (PyErr.keyError "body"))
    ∧ (∀ fs t b, Json.lookup (Json.obj fs) "title" = some t →
        Json.lookup (Json.obj fs) "body" = some b →
        Json.lookup (Json.obj fs) "labels" = none →
        buildData (Json.obj fs) = Except.error (PyErr.keyError "labels"))
    ∧ (∀ fs t b ls, Json.lookup (Json.obj fs) "title" = some t →
        Json.lookup (Json.obj fs) "body" = some b →
        Json.lookup (Json.obj fs) "labels" = some (Json.arr ls) →
        (∀ l ∈ ls, ∃ lfs, l = Json.obj lfs) →
        (∃ l ∈ ls, Json.lookup l "name" = none) →
        buildData (Json.obj fs) = Except.error (PyErr.keyError "name")) := by
  refine ⟨?_, ?_, ?_, ?_, ?_⟩
  · intro w idx issue e h
    constructor
    · unfold create_issue
      rw [h]
    · intro rest
      unfold createAll
      rw [h]
  · intro fs h
    unfold buildData
    rw [pyGetItem_none fs "title" h]
  · intro fs t ht hb
    unfold buildData
    rw [pyGetItem_some fs "title" t ht, pyGetItem_none fs "body" hb]
  · intro fs t b ht hb hl
    unfold buildData
    rw [pyGetItem_some fs "title" t ht, pyGetItem_some fs "body" b hb,
      pyGetItem_none fs "labels" hl]
  · intro fs t b ls ht hb hl hobj hex
    rw [buildData_eq (Json.obj fs) t b ls (pyGetItem_some fs "title" t ht)
      (pyGetItem_some fs "body" b hb) (pyGetItem_some fs "labels" _ hl),
      labelNames_missing_name ls hobj hex]

/-- Witness for C9: an issue with a `title` but no `body` makes
`create_issue` raise `KeyError "body"` with no POST recorded. -/
theorem c9_missing_key_precondition_witness :
    create_issue wEmpty 0
        (Json.obj [("title", Json.str "t"), ("labels", Json.arr [])]) =
      Except.error (PyErr.keyError "body")
    ∧ createAll wEmpty 0
        [Json.obj [("title", Json.str "t"), ("labels", Json.arr [])]] =
      ([], 0, some (PyErr.keyError "body")) := by
  have h := c9_missing_key_precondition.1 wEmpty 0
    (Json.obj [("title", Json.str "t"), ("labels", Json.arr [])])
    (PyErr.keyError "body") rfl
  exact ⟨h.1, h.2 []⟩

/-! ## C10: determinism across runs -/

/-- Counterexample to C10 as stated: two runs in which `fetch_issues`
returns the same page responses (identical fetch oracles, and the very same
returned page bodies) can still make different sequences of creation POSTs:
when a creation fails in one run but not the other, one run stops after one
POST where the other makes two. -/
theorem c10_counterexample :
    wDet1.fetchResp = wDet2.fetchResp
    ∧ returnedPages wDet1 (clone_issues wDet1 4).1 =
        returnedPages wDet2 (clone_issues wDet2 4).1
    ∧ createEvents (clone_issues wDet1 4).1 ≠
        createEvents (clone_issues wDet2 4).1 :=
  ⟨rfl, rfl, fun h => absurd (congrArg List.length h) (by decide)⟩

/-- Prefixing both traces with the same event preserves the initial-segment
relation. -/
theorem isInit_cons (x : Event) {a b : List Event} (h : IsInit a b) :
    IsInit (x :: a) (x :: b) := by
  obtain ⟨t, ht⟩ := h
  exact ⟨t, by rw [List.cons_append, ht]⟩

/-- A trace is an initial segment of itself followed by anything. -/
theorem isInit_append (a t : List Event) : IsInit a (a ++ t) := ⟨t, rfl⟩

/-- The initial-segment relation is transitive. -/
theorem isInit_trans {a b c : List Event} (h1 : IsInit a b)
    (h2 : IsInit b c) : IsInit a c := by
  obtain ⟨t1, ht1⟩ := h1
  obtain ⟨t2, ht2⟩ := h2
  exact ⟨t1 ++ t2, by rw [← List.append_assoc, ht1, ht2]⟩

/-- Prepending the same trace on both sides preserves the initial-segment
relation. -/
theorem isInit_append_both (c : List Event) {a b : List Event}
    (h : IsInit a b) : IsInit (c ++ a) (c ++ b) := by
  obtain ⟨t, ht⟩ := h
  exact ⟨t, by rw [List.append_assoc, ht]⟩

/-- A fetch event contributes no creation POST. -/
theorem createEvents_fetch_cons (p : Nat) (evs : List Event) :
    createEvents (Event.fetch p :: evs) = createEvents evs := by
  simp [createEvents, List.filter, Event.isCreate]

/-- Creation POSTs of a concatenation. -/
theorem createEvents_append (a b : List Event) :
    createEvents (a ++ b) = createEvents a ++ createEvents b := by
  simp [createEvents, List.filter_append]

/-- Taking the creation POSTs of a trace preserves the initial-segment
relation. -/
theorem createEvents_mono {a b : List Event} (h : IsInit a b) :
    IsInit (createEvents a) (createEvents b) := by
  obtain ⟨t, ht⟩ := h
  exact ⟨createEvents t, by rw [← createEvents_append, ht]⟩

/-- Comparison of the inner loop under two creation oracles: the two event
lists always extend one another; a run whose oracle raised nothing is the
longer one; two non-raising runs agree entirely. -/
theorem createAll_compare (w1 w2 : World) :
    ∀ (issues : List Json) (idx : Nat) e1 i1 r1 e2 i2 r2,
      createAll w1 idx issues = (e1, i1, r1) →
      createAll w2 idx issues = (e2, i2, r2) →
      (IsInit e1 e2 ∨ IsInit e2 e1) ∧
      (r1 = none → IsInit e2 e1) ∧
      (r2 = none → IsInit e1 e2) ∧
      (r1 = none → r2 = none → e1 = e2 ∧ i1 = i2) := by
  intro issues
  induction issues with
  | nil =>
      intro idx e1 i1 r1 e2 i2 r2 h1 h2
      simp only [createAll] at h1 h2
      injection h1 with a1 b1
      injection b1 with b1 c1
      injection h2 with a2 b2
      injection b2 with b2 c2
      subst a1; subst b1; subst c1; subst a2; subst b2; subst c2
      exact ⟨Or.inl ⟨[], rfl⟩, fun _ => ⟨[], rfl⟩, fun _ => ⟨[], rfl⟩,
        fun _ _ => ⟨rfl, rfl⟩⟩
  | cons hd tl ih =>
      intro idx e1 i1 r1 e2 i2 r2 h1 h2
      cases hbd : buildData hd with
      | error e =>
          simp only [createAll, hbd] at h1 h2
          injection h1 with a1 b1
          injection b1 with b1 c1
          injection h2 with a2 b2
          injection b2 with b2 c2
          subst a1; subst b1; subst c1; subst a2; subst b2; subst c2
          exact ⟨Or.inl ⟨[], rfl⟩, fun hr => Option.noConfusion hr,
            fun hr => Option.noConfusion hr,
            fun hr _ => Option.noConfusion hr⟩
      | ok d =>
          simp only [createAll, hbd] at h1 h2
          cases hc1 : w1.createResp idx with
          | error s1 =>
              simp only [hc1] at h1
              injection h1 with a1 b1
              injection b1 with b1 c1
              subst a1; subst b1; subst c1
              cases hc2 : w2.createResp idx with
              | error s2 =>
                  simp only [hc2] at h2
                  injection h2 with a2 b2
                  injection b2 with b2 c2
                  subst a2; subst b2; subst c2
                  exact ⟨Or.inl ⟨[], rfl⟩, fun hr => Option.noConfusion hr,
                    fun hr => Option.noConfusion hr,
                    fun hr _ => Option.noConfusion hr⟩
              | ok r =>
                  simp only [hc2] at h2
                  rcases hca2 : createAll w2 (idx + 1) tl with ⟨e2x, i2x, r2x⟩
                  simp only [hca2] at h2
                  injection h2 with a2 b2
                  injection b2 with b2 c2
                  subst a2; subst b2; subst c2
                  exact ⟨Or.inl ⟨e2x, rfl⟩, fun hr => Option.noConfusion hr,
                    fun _ => ⟨e2x, rfl⟩, fun hr _ => Option.noConfusion hr⟩
          | ok r1v =>
              simp only [hc1] at h1
              rcases hca1 : createAll w1 (idx + 1) tl with ⟨e1x, i1x, r1x⟩
              simp only [hca1] at h1
              injection h1 with a1 b1
              injection b1 with b1 c1
              subst a1; subst b1; subst c1
              cases hc2 : w2.createResp idx with
              | error s2 =>
                  simp only [hc2] at h2
                  injection h2 with a2 b2
                  injection b2 with b2 c2
                  subst a2; subst b2; subst c2
                  exact ⟨Or.inr ⟨e1x, rfl⟩, fun _ => ⟨e1x, rfl⟩,
                    fun hr => Option.noConfusion hr,
                    fun _ hr => Option.noConfusion hr⟩
              | ok r2v =>
                  simp only [hc2] at h2
                  rcases hca2 : createAll w2 (idx + 1) tl with ⟨e2x, i2x, r2x⟩
                  simp only [hca2] at h2
                  injection h2 with a2 b2
                  injection b2 with b2 c2
                  subst a2; subst b2; subst c2
                  obtain ⟨hO, hI1, hI2, hEq⟩ :=
                    ih (idx + 1) e1x i1x r1x e2x i2x r2x hca1 hca2
                  refine ⟨?_, ?_, ?_, ?_⟩
                  · rcases hO with h | h
                    · exact Or.inl (isInit_cons _ h)
                    · exact Or.inr (isInit_cons _ h)
                  · intro hr
                    exact isInit_cons _ (hI1 hr)
                  · intro hr
                    exact isInit_cons _ (hI2 hr)
                  · intro hr1 hr2
                    obtain ⟨ha, hb⟩ := hEq hr1 hr2
                    exact ⟨by rw [ha], hb⟩

/-- Comparison of the driver loop under two worlds with the same fetch
oracle: one run's sequence of creation POSTs is always an initial segment
of the other's. -/
theorem cloneLoop_compare (w1 w2 : World) (hf : w1.fetchResp = w2.fetchResp) :
    ∀ (fuel page idx : Nat),
      IsInit (createEvents (cloneLoop w1 fuel page idx).1)
          (createEvents (cloneLoop w2 fuel page idx).1)
      ∨ IsInit (createEvents (cloneLoop w2 fuel page idx).1)
          (createEvents (cloneLoop w1 fuel page idx).1) := by
  intro fuel
  induction fuel with
  | zero => intro page idx; exact Or.inl ⟨[], rfl⟩
  | succ f ih =>
      intro page idx
      cases hfp : w1.fetchResp page with
      | error s =>
          rw [cloneLoop_step_error w1 f page idx s hfp,
            cloneLoop_step_error w2 f page idx s (by rw [← hf]; exact hfp)]
          exact Or.inl ⟨[], by simp⟩
      | ok issues =>
          cases issues with
          | nil =>
              rw [cloneLoop_step_empty w1 f page idx hfp,
                cloneLoop_step_empty w2 f page idx (by rw [← hf]; exact hfp)]
              exact Or.inl ⟨[], by simp⟩
          | cons a as =>
              rw [cloneLoop_step_cons w1 f page idx a as hfp,
                cloneLoop_step_cons w2 f page idx a as
                  (by rw [← hf]; exact hfp)]
              rcases hca1 : createAll w1 idx (a :: as) with ⟨e1, i1, r1⟩
              rcases hca2 : createAll w2 idx (a :: as) with ⟨e2, i2, r2⟩
              obtain ⟨hO, hI1, hI2, hEq⟩ :=
                createAll_compare w1 w2 (a :: as) idx e1 i1 r1 e2 i2 r2
                  hca1 hca2
              cases r1 with
              | some err1 =>
                  cases r2 with
                  | some err2 =>
                      simp only
                      rw [createEvents_fetch_cons, createEvents_fetch_cons]
                      rcases hO with h | h
                      · exact Or.inl (createEvents_mono h)
                      · exact Or.inr (createEvents_mono h)
                  | none =>
                      simp only
                      rcases hcl2 : cloneLoop w2 f (page + 1) i2
                        with ⟨ev2, res2⟩
                      simp only [hcl2]
                      left
                      rw [createEvents_fetch_cons, createEvents_fetch_cons,
                        createEvents_append]
                      exact isInit_trans (createEvents_mono (hI2 rfl))
                        (isInit_append _ _)
              | none =>
                  cases r2 with
                  | some err2 =>
                      simp only
                      rcases hcl1 : cloneLoop w1 f (page + 1) i1
                        with ⟨ev1, res1⟩
                      simp only [hcl1]
                      right
                      rw [createEvents_fetch_cons, createEvents_fetch_cons,
                        createEvents_append]
                      exact isInit_trans (createEvents_mono (hI1 rfl))
                        (isInit_append _ _)
                  | none =>
                      obtain ⟨hee, hii⟩ := hEq rfl rfl
                      subst hee
                      subst hii
                      simp only
                      rcases hcl1 : cloneLoop w1 f (page + 1) i1
                        with ⟨ev1, res1⟩
                      rcases hcl2 : cloneLoop w2 f (page + 1) i1
                        with ⟨ev2, res2⟩
                      simp only [hcl1, hcl2]
                      have hrec := ih (page + 1) i1
                      rw [hcl1, hcl2] at hrec
                      rcases hrec with h | h
                      · left
                        rw [createEvents_fetch_cons, createEvents_fetch_cons,
                          createEvents_append, createEvents_append]
                        exact isInit_append_both _ h
                      · right
                        rw [createEvents_fetch_cons, createEvents_fetch_cons,
                          createEvents_append, createEvents_append]
                        exact isInit_append_both _ h

/-- C10, amended: for two runs in which `fetch_issues` answers with the
same page responses, the sequence of creation POSTs (count, order and
payloads) of one run is an initial segment of the other's; and when the
creation responses also agree, the two runs — traces and results — are
identical.  (Full equality of the POST sequences fails when a creation
succeeds in one run and fails in the other, per `c10_counterexample`.) -/
theorem c10_deterministic_given_responses (w1 w2 : World)
    (hf : w1.fetchResp = w2.fetchResp) (fuel : Nat) :
    (IsInit (createEvents (clone_issues w1 fuel).1)
        (createEvents (clone_issues w2 fuel).1)
      ∨ IsInit (createEvents (clone_issues w2 fuel).1)
        (createEvents (clone_issues w1 fuel).1))
    ∧ (w1.createResp = w2.createResp →
        clone_issues w1 fuel = clone_issues w2 fuel) := by
  constructor
  · exact cloneLoop_compare w1 w2 hf fuel 1 0
  · intro hc
    have hw : w1 = w2 := by
      cases w1
      cases w2
      simp only at hf hc
      rw [hf, hc]
    rw [hw]

/-- Witness for the amended C10: the two determinism worlds share their
fetch oracle, so their POST sequences are comparable. -/
theorem c10_deterministic_given_responses_witness :
    IsInit (createEvents (clone_issues wDet1 4).1)
        (createEvents (clone_issues wDet2 4).1)
      ∨ IsInit (createEvents (clone_issues wDet2 4).1)
        (createEvents (clone_issues wDet1 4).1) :=
  (c10_deterministic_given_responses wDet1 wDet2 rfl 4).1
